import Mathlib

/-!
Verification of the Run Orchestration & Event Distribution subsystem of the
Composio Agent Builder backend.  The definitions below are shallow embeddings
of the Python source:

* `_merge_jsonb`            — src/backend/misc/utils.py
* `update_run_status`       — src/backend/misc/utils.py
* `execute_run_async`       — src/backend/misc/utils.py (modelled as the trace
                              of database writes and broker calls it performs)
* `create_run_config`       — src/backend/services/langgraph_service.py
* `check_and_schedule_cron_jobs`, `run_cron_job`, `run_scheduled_jobs`
                            — src/backend/services/cron_service.py
* `create_run`, `create_and_stream_run`, `cancel_run_endpoint`
                            — src/src/api/chat_routes.py (modelled as traces)

Python dicts are modelled as association lists with unique keys; JSON values
as the inductive `JValue`.
-/

/-- A JSON-like value, modelling the payloads the Python code passes around. -/
inductive JValue where
  | null
  | bool (b : Bool)
  | num (n : Int)
  | str (s : String)
  | arr (items : List JValue)
  | obj (fields : List (String × JValue))

/-- A Python dict with string keys, modelled as an association list.
Lookup takes the first matching binding; the operations below keep keys
unique when starting from a dict with unique keys. -/
abbrev Dict := List (String × JValue)

/-- `d[k]` lookup: first binding whose key equals `k`. -/
def dget : Dict → String → Option JValue
  | [], _ => none
  | (k, v) :: rest, key => if k = key then some v else dget rest key

/-- `d[k] = v` assignment: replace the binding in place if the key is
present, otherwise append it at the end (Python dict insertion order). -/
def dset : Dict → String → JValue → Dict
  | [], key, val => [(key, val)]
  | (k, v) :: rest, key, val =>
      if k = key then (k, val) :: rest else (k, v) :: dset rest key val

/-- `d.setdefault(k, v)`: insert `(k, v)` only when `k` is absent. -/
def dsetdefault (d : Dict) (k : String) (v : JValue) : Dict :=
  match dget d k with
  | some _ => d
  | none => d ++ [(k, v)]

/-- `d.update(other)`: assign every binding of `other` into `d`, in order. -/
def dupdate (d : Dict) (other : Dict) : Dict :=
  other.foldl (fun acc kv => dset acc kv.1 kv.2) d

/-- Shallow embedding of `_merge_jsonb(*objects)` from
src/backend/misc/utils.py: start from an empty dict and `update` with every
non-`None` operand in order ("mimics PostgreSQL JSONB merge behavior"). -/
def _merge_jsonb (objects : List (Option Dict)) : Dict :=
  objects.foldl
    (fun result obj =>
      match obj with
      | some o => dupdate result o
      | none => result)
    []

theorem dget_dset_self (d : Dict) (k : String) (v : JValue) :
    dget (dset d k v) k = some v := by
  induction d with
  | nil => simp [dset, dget]
  | cons hd tl ih =>
      by_cases h : hd.1 = k
      · simp [dset, dget, h]
      · simp [dset, dget, h, ih]

theorem dget_dset_ne (d : Dict) {k k1 : String} (v : JValue) (h : k ≠ k1) :
    dget (dset d k v) k1 = dget d k1 := by
  induction d with
  | nil => simp [dset, dget, h]
  | cons hd tl ih =>
      by_cases h0 : hd.1 = k
      · simp [dset, dget, h0, h]
      · by_cases h1 : hd.1 = k1
        · simp [dset, dget, h0, h1, Ne.symm h]
        · simp [dset, dget, h0, h1, ih]

theorem dget_append (d1 d2 : Dict) (k : String) :
    dget (d1 ++ d2) k =
      match dget d1 k with
      | some v => some v
      | none => dget d2 k := by
  induction d1 with
  | nil => simp [dget]
  | cons hd tl ih =>
      by_cases h : hd.1 = k
      · simp [dget, h]
      · simp [dget, h, ih]

theorem dget_eq_none_of_not_mem (d : Dict) (k : String)
    (h : k ∉ d.map Prod.fst) : dget d k = none := by
  induction d with
  | nil => rfl
  | cons hd tl ih =>
      simp only [List.map_cons, List.mem_cons] at h
      push_neg at h
      have hne : hd.1 ≠ k := fun hk => h.1 hk.symm
      simp [dget, hne, ih h.2]

theorem dget_dupdate (d o : Dict) (k : String)
    (ho : (o.map Prod.fst).Nodup) :
    dget (dupdate d o) k =
      match dget o k with
      | some v => some v
      | none => dget d k := by
  induction o generalizing d with
  | nil => simp [dupdate, dget]
  | cons hd tl ih =>
      simp only [List.map_cons, List.nodup_cons] at ho
      have step : dupdate d (hd :: tl) = dupdate (dset d hd.1 hd.2) tl := rfl
      rw [step, ih _ ho.2]
      by_cases h : hd.1 = k
      · have : k ∉ tl.map Prod.fst := h ▸ ho.1
        rw [dget_eq_none_of_not_mem tl k this]
        subst h
        simp [dget, dget_dset_self]
      · rw [dget_dset_ne d hd.2 h]
        simp [dget, h]

/-- C9: the merge performed at run creation
(`config = _merge_jsonb(assistant.config, config)` in chat_routes) is a
shallow key-by-key union in which the second (request-supplied) operand wins
for every key present in both, and values — nested objects included — are
taken wholesale from the winning operand, never deep-merged. -/
theorem merge_jsonb_request_wins (a b : Dict) (k : String)
    (ha : (a.map Prod.fst).Nodup) (hb : (b.map Prod.fst).Nodup) :
    (dget (_merge_jsonb [some a, some b]) k =
      match dget b k with
      | some v => some v
      | none => dget a k) ∧
    (∀ fa fb, dget a k = some (JValue.obj fa) → dget b k = some (JValue.obj fb) →
      dget (_merge_jsonb [some a, some b]) k = some (JValue.obj fb)) := by
  have hmain : dget (_merge_jsonb [some a, some b]) k =
      match dget b k with
      | some v => some v
      | none => dget a k := by
    have h1 : _merge_jsonb [some a, some b] = dupdate (dupdate [] a) b := rfl
    rw [h1, dget_dupdate _ b k hb, dget_dupdate _ a k ha]
    cases dget b k <;> cases dget a k <;> simp [dget]
  refine ⟨hmain, ?_⟩
  intro fa fb hfa hfb
  rw [hmain, hfb]

/-- Witness for C9 at a concrete input: the request's nested object for key
"cfg" replaces the assistant default wholesale, and the unshared key "x"
survives from the defaults. -/
theorem merge_jsonb_request_wins_witness :
    (dget (_merge_jsonb
        [some [("x", JValue.num 1), ("cfg", JValue.obj [("p", JValue.num 1)])],
         some [("cfg", JValue.obj [("q", JValue.num 2)])]]) "cfg" =
      some (JValue.obj [("q", JValue.num 2)])) ∧
    (dget (_merge_jsonb
        [some [("x", JValue.num 1), ("cfg", JValue.obj [("p", JValue.num 1)])],
         some [("cfg", JValue.obj [("q", JValue.num 2)])]]) "x" =
      some (JValue.num 1)) := by
  constructor
  · have h := merge_jsonb_request_wins
      [("x", JValue.num 1), ("cfg", JValue.obj [("p", JValue.num 1)])]
      [("cfg", JValue.obj [("q", JValue.num 2)])] "cfg"
      (by decide) (by decide)
    rw [h.1]; rfl
  · have h := merge_jsonb_request_wins
      [("x", JValue.num 1), ("cfg", JValue.obj [("p", JValue.num 1)])]
      [("cfg", JValue.obj [("q", JValue.num 2)])] "x"
      (by decide) (by decide)
    rw [h.1]; rfl

/-- Shallow embedding of `create_run_config` from
src/backend/services/langgraph_service.py.  The Python code deep-copies
`additional_config` (or starts from an empty dict), ensures a `configurable`
section exists, `setdefault`s the server-side `thread_id` and `run_id` into
it, and finally `update`s it with the non-`None` entries of `checkpoint`
when that is a non-empty dict.  If the client supplied a non-dict value under
`configurable` the Python code raises (attribute access on a non-dict);
this is modelled by returning `none`. -/
def create_run_config (run_id thread_id : String)
    (additional_config : Option Dict) (checkpoint : Option Dict) :
    Option Dict :=
  let cfg : Dict :=
    match additional_config with
    | some d => d
    | none => []
  let cfg := dsetdefault cfg "configurable" (JValue.obj [])
  match dget cfg "configurable" with
  | some (JValue.obj fields) =>
      let fields := dsetdefault fields "thread_id" (JValue.str thread_id)
      let fields := dsetdefault fields "run_id" (JValue.str run_id)
      let fields :=
        match checkpoint with
        | some cp =>
            if cp.isEmpty then fields
            else
              dupdate fields
                (cp.filter fun kv =>
                  match kv.2 with
                  | JValue.null => false
                  | _ => true)
        | none => fields
      some (dset cfg "configurable" (JValue.obj fields))
  | _ => none

/-- The client's `configurable` section, as the fields of its JSON object,
or `[]` when absent. -/
def confFields (d : Dict) : Dict :=
  match dget d "configurable" with
  | some (JValue.obj f) => f
  | _ => []

/-- The `configurable` entry of the client config is either absent or a JSON
object (otherwise the Python code raises before returning a config). -/
def GoodCfg (d : Dict) : Prop :=
  match dget d "configurable" with
  | none => True
  | some (JValue.obj _) => True
  | _ => False

theorem dget_dsetdefault_preserved (d : Dict) (k0 : String) (v0 : JValue)
    {k : String} {v : JValue} (h : dget d k = some v) :
    dget (dsetdefault d k0 v0) k = some v := by
  unfold dsetdefault
  cases h0 : dget d k0 with
  | some w => exact h
  | none => rw [dget_append, h]

/-- C10: with `checkpoint = None`, `create_run_config` keeps every key-value
pair the client supplied: keys other than `configurable` are looked up
unchanged, every binding the client put inside `configurable` survives
verbatim — in particular a client-set `configurable.thread_id` or
`configurable.run_id` is kept, so the server-side identifiers never
overwrite it. -/
theorem create_run_config_preserves_client (run_id thread_id : String)
    (ac : Dict) (h : GoodCfg ac) :
    ∃ r f2, create_run_config run_id thread_id (some ac) none = some r ∧
      dget r "configurable" = some (JValue.obj f2) ∧
      (∀ k, ¬ k = "configurable" → dget r k = dget ac k) ∧
      (∀ k v, dget (confFields ac) k = some v → dget f2 k = some v) := by
  unfold GoodCfg at h
  cases h0 : dget ac "configurable" with
  | none =>
      have hcfg : dsetdefault ac "configurable" (JValue.obj []) =
          ac ++ [("configurable", JValue.obj [])] := by
        unfold dsetdefault; rw [h0]
      have hget : dget (ac ++ [("configurable", JValue.obj [])]) "configurable" =
          some (JValue.obj []) := by
        rw [dget_append, h0]; rfl
      have hrun : create_run_config run_id thread_id (some ac) none =
          some (dset (ac ++ [("configurable", JValue.obj [])]) "configurable"
            (JValue.obj (dsetdefault
              (dsetdefault [] "thread_id" (JValue.str thread_id))
              "run_id" (JValue.str run_id)))) := by
        simp only [create_run_config]
        rw [hcfg, hget]
      have hcf : confFields ac = [] := by
        unfold confFields; rw [h0]
      refine ⟨_, _, hrun, dget_dset_self _ _ _, ?_, ?_⟩
      · intro k hk
        rw [dget_dset_ne _ _ (Ne.symm hk), dget_append]
        cases hak : dget ac k with
        | some v => rfl
        | none => simp [dget, Ne.symm hk]
      · intro k v hv
        rw [hcf] at hv
        simp [dget] at hv
  | some v0 =>
      rw [h0] at h
      cases v0 with
      | obj f =>
          have hcfg : dsetdefault ac "configurable" (JValue.obj []) = ac := by
            unfold dsetdefault; rw [h0]
          have hrun : create_run_config run_id thread_id (some ac) none =
              some (dset ac "configurable"
                (JValue.obj (dsetdefault
                  (dsetdefault f "thread_id" (JValue.str thread_id))
                  "run_id" (JValue.str run_id)))) := by
            simp only [create_run_config]
            rw [hcfg, h0]
          have hcf : confFields ac = f := by
            unfold confFields; rw [h0]
          refine ⟨_, _, hrun, dget_dset_self _ _ _, ?_, ?_⟩
          · intro k hk
            exact dget_dset_ne _ _ (Ne.symm hk)
          · intro k v hv
            rw [hcf] at hv
            exact dget_dsetdefault_preserved _ _ _
              (dget_dsetdefault_preserved _ _ _ hv)
      | null => exact h.elim
      | bool b => exact h.elim
      | num n => exact h.elim
      | str s => exact h.elim
      | arr items => exact h.elim

/-- Witness for C10 at a concrete input: the client config has an unrelated
top-level key "tags" and already pins `configurable.thread_id`; both survive
the server-side merge. -/
theorem create_run_config_preserves_client_witness :
    GoodCfg [("tags", JValue.str "abc"),
             ("configurable", JValue.obj [("thread_id", JValue.str "client-t")])] ∧
    (∃ r f2,
      create_run_config "server-run" "server-thread"
          (some [("tags", JValue.str "abc"),
                 ("configurable", JValue.obj [("thread_id", JValue.str "client-t")])])
          none = some r ∧
      dget r "configurable" = some (JValue.obj f2) ∧
      (∀ k, ¬ k = "configurable" →
        dget r k =
          dget [("tags", JValue.str "abc"),
                ("configurable", JValue.obj [("thread_id", JValue.str "client-t")])] k) ∧
      (∀ k v,
        dget (confFields [("tags", JValue.str "abc"),
                ("configurable", JValue.obj [("thread_id", JValue.str "client-t")])]) k =
            some v →
        dget f2 k = some v)) := by
  constructor
  · trivial
  · exact create_run_config_preserves_client "server-run" "server-thread"
      [("tags", JValue.str "abc"),
       ("configurable", JValue.obj [("thread_id", JValue.str "client-t")])]
      (by trivial)

/-- One persisted Run row, restricted to the fields `update_run_status`
can touch. -/
structure RunRecord where
  status : String
  output : Option JValue
  error_message : Option String
  updated_at : Nat

/-- Shallow embedding of `update_run_status` from src/backend/misc/utils.py:
builds a values dict with `status` and `updated_at = now`, adds `output`
only when it is not `None`, adds `error_message` only when `error` is not
`None`, and applies it to the Run row. -/
def update_run_status (r : RunRecord) (status : String)
    (output : Option JValue) (error : Option String) (now : Nat) :
    RunRecord :=
  { status := status
    updated_at := now
    output :=
      match output with
      | some o => some o
      | none => r.output
    error_message :=
      match error with
      | some e => some e
      | none => r.error_message }

/-- C7 counterexample: calling `update_run_status` a second time with the
same terminal status, output and error arguments does not leave all Run
fields unchanged — the second call moves `updated_at` to its own call time
(here from 1 to 2), so the row after the second call differs from the row
after the first. -/
theorem update_run_status_second_call_changes_row :
    (update_run_status
        (update_run_status ⟨"running", none, none, 0⟩ "completed"
          (some (JValue.obj [])) none 1)
        "completed" (some (JValue.obj [])) none 2).updated_at = 2 ∧
    (update_run_status ⟨"running", none, none, 0⟩ "completed"
        (some (JValue.obj [])) none 1).updated_at = 1 ∧
    update_run_status
        (update_run_status ⟨"running", none, none, 0⟩ "completed"
          (some (JValue.obj [])) none 1)
        "completed" (some (JValue.obj [])) none 2 ≠
      update_run_status ⟨"running", none, none, 0⟩ "completed"
        (some (JValue.obj [])) none 1 := by
  refine ⟨rfl, rfl, ?_⟩
  intro hcontra
  have h2 := congrArg RunRecord.updated_at hcontra
  simp [update_run_status] at h2

/-- C7 as amended: `update_run_status` is idempotent on every Run field
except `updated_at` — a second call with the same terminal status, output
and error arguments collapses to a single call performed at the second
call's time, and repeating the call at the same time is the identity. -/
theorem update_run_status_idempotent_up_to_timestamp (r : RunRecord)
    (status : String) (output : Option JValue) (error : Option String)
    (t1 t2 : Nat) :
    update_run_status (update_run_status r status output error t1)
        status output error t2 =
      update_run_status r status output error t2 ∧
    update_run_status (update_run_status r status output error t1)
        status output error t1 =
      update_run_status r status output error t1 := by
  constructor <;>
    · cases output <;> cases error <;> simp [update_run_status]

/-- One raw event yielded by the Graph collaborator's `astream`: either a
Python tuple of values (multi-stream-mode events such as
`("values", payload)` or `("messages", chunk, meta)`) or a bare non-tuple
value (plain values mode). -/
inductive RawEvent where
  | tup (items : List JValue)
  | val (v : JValue)

/-- The synthetic event id built by `execute_run_async`:
`f"\x7brun_id\x7d_event_\x7bevent_counter\x7d"`. -/
def eventId (run_id : String) (seq : Nat) : String :=
  run_id ++ "_event_" ++ toString seq

/-- Final-output tracking in the `astream` loop of `execute_run_async`:
a tuple whose first element is the string "values" (and which has at least
two elements) replaces the final output with its second element; a
non-tuple event replaces it wholesale; every other event leaves it. -/
def trackFinalOutput (fo : Option JValue) (e : RawEvent) : Option JValue :=
  match e with
  | RawEvent.tup (JValue.str s :: second :: _) =>
      if s = "values" then some second else fo
  | RawEvent.tup _ => fo
  | RawEvent.val v => some v

/-- The `final_output` variable at the end of the `astream` loop, given the
events consumed so far (initialized to `None`). -/
def computeFinalOutput (events : List RawEvent) : Option JValue :=
  events.foldl trackFinalOutput none

/-- The synthetic terminal marker published after the collaborator stream
ends: the Python tuple
`("end", \x7b"status": "completed", "final_output": final_output\x7d)`. -/
def endEvent (fo : Option JValue) : RawEvent :=
  RawEvent.tup [JValue.str "end",
    JValue.obj [("status", JValue.str "completed"),
                ("final_output", fo.getD JValue.null)]]

/-- One observable side effect of the orchestration code, in program order:
database writes, broker calls of the streaming service, and in-flight-task
bookkeeping. -/
inductive OrchAction where
  | dbRunStatus (run_id status : String) (output : Option JValue)
      (error : Option String)
  | dbRunInsert (run_id thread_id status : String)
  | dbThreadStatus (thread_id status : String)
  | updThreadMetadata (thread_id : String)
  | brokerPut (run_id : String) (seq : Nat) (event_id : String) (ev : RawEvent)
  | storeEvent (run_id : String) (seq : Nat) (event_id : String) (ev : RawEvent)
  | signalCancelled (run_id : String)
  | signalError (run_id msg : String)
  | cancelRunTask (run_id : String)
  | interruptRunTask (run_id : String)
  | cleanupRun (run_id : String)
  | startTask (run_id : String)
  | registerActiveRun (run_id : String)
  | removeActiveRun (run_id : String)

/-- The per-event body of the `astream` loop in `execute_run_async`:
increment the counter, build the event id, forward to the broker, store for
replay.  `counter` is the value of `event_counter` before the event. -/
def eventActions (run_id : String) : Nat → List RawEvent → List OrchAction
  | _, [] => []
  | counter, e :: rest =>
      OrchAction.brokerPut run_id (counter + 1) (eventId run_id (counter + 1)) e ::
      OrchAction.storeEvent run_id (counter + 1) (eventId run_id (counter + 1)) e ::
      eventActions run_id (counter + 1) rest

/-- How the collaborator stream ends for this run: normally, by task
cancellation (asyncio.CancelledError) observed while consuming it, or by
any other exception with message `msg`. -/
inductive StreamResult where
  | ok
  | cancelled
  | errored (msg : String)

/-- Shallow embedding of `execute_run_async` from src/backend/misc/utils.py
as the ordered trace of side effects it performs.  `consumed` is the list of
raw events the Graph collaborator yielded before the stream ended with
`outcome`.  The trace mirrors the source: set the Run to `running`; for each
event bump the counter, forward to the broker and store; then on normal
completion publish and store the synthetic end marker, persist the Run as
`completed` with an empty-object output, set the thread `idle`; on
cancellation persist `cancelled` with empty output, set the thread idle,
signal the broker; on any other error persist `failed` with the error text,
set the thread idle, signal the broker; finally clean up the broker channel
and drop the run from `active_runs`. -/
def execute_run_async (run_id thread_id : String)
    (consumed : List RawEvent) (outcome : StreamResult) : List OrchAction :=
  let n := consumed.length
  OrchAction.dbRunStatus run_id "running" none none ::
  (eventActions run_id 0 consumed ++
    (match outcome with
     | StreamResult.ok =>
        let fo := computeFinalOutput consumed
        [OrchAction.brokerPut run_id (n + 1) (eventId run_id (n + 1)) (endEvent fo),
         OrchAction.storeEvent run_id (n + 1) (eventId run_id (n + 1)) (endEvent fo),
         OrchAction.dbRunStatus run_id "completed" (some (JValue.obj [])) none,
         OrchAction.dbThreadStatus thread_id "idle"]
     | StreamResult.cancelled =>
        [OrchAction.dbRunStatus run_id "cancelled" (some (JValue.obj [])) none,
         OrchAction.dbThreadStatus thread_id "idle",
         OrchAction.signalCancelled run_id]
     | StreamResult.errored msg =>
        [OrchAction.dbRunStatus run_id "failed" (some (JValue.obj [])) (some msg),
         OrchAction.dbThreadStatus thread_id "idle",
         OrchAction.signalError run_id msg]) ++
    [OrchAction.cleanupRun run_id, OrchAction.removeActiveRun run_id])

/-- The events a trace publishes to the broker, in order, as
(sequence, event id, event) triples. -/
def publishedEvents (trace : List OrchAction) : List (Nat × String × RawEvent) :=
  trace.filterMap fun a =>
    match a with
    | OrchAction.brokerPut _ seq eid ev => some (seq, eid, ev)
    | _ => none

/-- The `output` argument of every `completed` Run-status write in a trace,
in order. -/
def completedOutputs (trace : List OrchAction) : List (Option JValue) :=
  trace.filterMap fun a =>
    match a with
    | OrchAction.dbRunStatus _ "completed" out _ => some out
    | _ => none

theorem eventActions_length (run_id : String) (c : Nat) (es : List RawEvent) :
    (eventActions run_id c es).length = 2 * es.length := by
  induction es generalizing c with
  | nil => rfl
  | cons e rest ih =>
      simp only [eventActions, List.length_cons, ih]
      ring

theorem publishedEvents_eventActions (run_id : String) (c : Nat)
    (es : List RawEvent) :
    (publishedEvents (eventActions run_id c es)).map (fun p => p.1) =
      List.range' (c + 1) es.length := by
  induction es generalizing c with
  | nil => rfl
  | cons e rest ih =>
      simp only [eventActions, publishedEvents, List.filterMap_cons,
        List.range'_succ, List.map_cons] at ih ⊢
      exact congrArg (List.cons (c + 1)) (ih (c + 1))

theorem publishedEvents_append (t1 t2 : List OrchAction) :
    publishedEvents (t1 ++ t2) = publishedEvents t1 ++ publishedEvents t2 := by
  simp [publishedEvents, List.filterMap_append]

theorem eventActions_ids (run_id : String) (c : Nat) (es : List RawEvent) :
    ((publishedEvents (eventActions run_id c es)).all
      fun p => p.2.1 == eventId run_id p.1) = true := by
  induction es generalizing c with
  | nil => rfl
  | cons e rest ih =>
      simp only [eventActions, publishedEvents, List.filterMap_cons] at ih ⊢
      simp only [List.all_cons, ih (c + 1), Bool.and_true]
      simp

theorem publishedEvents_eventActions_length (run_id : String) (c : Nat)
    (es : List RawEvent) :
    (publishedEvents (eventActions run_id c es)).length = es.length := by
  have h := congrArg List.length (publishedEvents_eventActions run_id c es)
  simpa using h

theorem publishedEvents_exec_ok (run_id thread_id : String)
    (consumed : List RawEvent) :
    publishedEvents (execute_run_async run_id thread_id consumed
        StreamResult.ok) =
      publishedEvents (eventActions run_id 0 consumed) ++
        [(consumed.length + 1, eventId run_id (consumed.length + 1),
          endEvent (computeFinalOutput consumed))] := by
  simp [execute_run_async, publishedEvents, List.filterMap_append,
    List.filterMap_cons]

theorem publishedEvents_exec_cancelled (run_id thread_id : String)
    (consumed : List RawEvent) :
    publishedEvents (execute_run_async run_id thread_id consumed
        StreamResult.cancelled) =
      publishedEvents (eventActions run_id 0 consumed) := by
  simp [execute_run_async, publishedEvents, List.filterMap_append,
    List.filterMap_cons]

theorem publishedEvents_exec_errored (run_id thread_id msg : String)
    (consumed : List RawEvent) :
    publishedEvents (execute_run_async run_id thread_id consumed
        (StreamResult.errored msg)) =
      publishedEvents (eventActions run_id 0 consumed) := by
  simp [execute_run_async, publishedEvents, List.filterMap_append,
    List.filterMap_cons]

theorem range'_one_concat (n : Nat) :
    List.range' 1 n ++ [n + 1] = List.range' 1 (n + 1) := by
  rw [List.range'_1_concat, Nat.add_comm 1 n]

/-- C1: for every run driven by `execute_run_async`, the sequence numbers of
the events it publishes to the broker equal 1, 2, ..., count — strictly
increasing, gapless, starting at 1 — on every outcome of the collaborator
stream; every published event id is `eventId run_id seq`
(`run_id ++ "_event_" ++ seq`); and on a normally completing run the last
published event is the synthetic `end` marker carrying the completed status
and the tracked final output. -/
theorem run_event_sequence_gapless (run_id thread_id : String)
    (consumed : List RawEvent) (outcome : StreamResult) :
    ((publishedEvents
        (execute_run_async run_id thread_id consumed outcome)).map
          (fun p => p.1) =
      List.range' 1 (publishedEvents
        (execute_run_async run_id thread_id consumed outcome)).length) ∧
    (((publishedEvents
        (execute_run_async run_id thread_id consumed outcome)).all
          fun p => p.2.1 == eventId run_id p.1) = true) ∧
    ((publishedEvents
        (execute_run_async run_id thread_id consumed StreamResult.ok)).getLast? =
      some (consumed.length + 1, eventId run_id (consumed.length + 1),
        endEvent (computeFinalOutput consumed))) := by
  have hlast : (publishedEvents
      (execute_run_async run_id thread_id consumed StreamResult.ok)).getLast? =
      some (consumed.length + 1, eventId run_id (consumed.length + 1),
        endEvent (computeFinalOutput consumed)) := by
    rw [publishedEvents_exec_ok]
    exact List.getLast?_concat _
  refine ⟨?_, ?_, hlast⟩
  · cases outcome with
    | ok =>
        rw [publishedEvents_exec_ok, List.map_append,
          publishedEvents_eventActions, List.length_append,
          publishedEvents_eventActions_length]
        simpa using range'_one_concat consumed.length
    | cancelled =>
        rw [publishedEvents_exec_cancelled, publishedEvents_eventActions,
          publishedEvents_eventActions_length]
    | errored msg =>
        rw [publishedEvents_exec_errored, publishedEvents_eventActions,
          publishedEvents_eventActions_length]
  · cases outcome with
    | ok =>
        rw [publishedEvents_exec_ok, List.all_append]
        rw [eventActions_ids]
        simp
    | cancelled =>
        rw [publishedEvents_exec_cancelled, eventActions_ids]
    | errored msg =>
        rw [publishedEvents_exec_errored, eventActions_ids]

theorem completedOutputs_eventActions (run_id : String) (c : Nat)
    (es : List RawEvent) :
    completedOutputs (eventActions run_id c es) = [] := by
  induction es generalizing c with
  | nil => rfl
  | cons e rest ih =>
      simp only [eventActions, completedOutputs, List.filterMap_cons] at ih ⊢
      exact ih (c + 1)

theorem completedOutputs_exec_ok (run_id thread_id : String)
    (consumed : List RawEvent) :
    completedOutputs (execute_run_async run_id thread_id consumed
        StreamResult.ok) = [some (JValue.obj [])] := by
  have h := completedOutputs_eventActions run_id 0 consumed
  simp only [completedOutputs, List.filterMap_cons] at h ⊢
  simp [execute_run_async, List.filterMap_append, h]

/-- C4 counterexample: for a run whose collaborator stream yields the single
values-mode event "hi" and then finishes without error, the tracked final
output is the string "hi", yet the only `completed` Run-status write in the
executor's trace stores the empty JSON object — not that final output — as
the Run's output field.  The claim that the run is persisted with the final
output as its stored output field is therefore false. -/
theorem run_completed_output_not_final_output :
    completedOutputs (execute_run_async "r" "t"
        [RawEvent.val (JValue.str "hi")] StreamResult.ok) =
      [some (JValue.obj [])] ∧
    computeFinalOutput [RawEvent.val (JValue.str "hi")] =
      some (JValue.str "hi") ∧
    JValue.obj [] ≠ JValue.str "hi" := by
  refine ⟨completedOutputs_exec_ok "r" "t" [RawEvent.val (JValue.str "hi")],
    rfl, fun h => JValue.noConfusion h⟩

/-- C4 as amended: when the collaborator stream finishes without error the
Run Executor publishes the synthetic `end` event carrying the completed
status and the tracked final output as its last published event, and
persists the Run as `completed` with a non-null output — but that stored
output is the empty JSON object (the source stores empty JSON "to avoid
serialization issues"), not the collaborator's final output, which is
carried only inside the `end` event. -/
theorem run_completion_end_event_and_empty_stored_output
    (run_id thread_id : String) (consumed : List RawEvent) :
    ((publishedEvents
        (execute_run_async run_id thread_id consumed StreamResult.ok)).getLast? =
      some (consumed.length + 1, eventId run_id (consumed.length + 1),
        endEvent (computeFinalOutput consumed))) ∧
    (completedOutputs (execute_run_async run_id thread_id consumed
        StreamResult.ok) = [some (JValue.obj [])]) ∧
    (some (JValue.obj []) ≠ (none : Option JValue)) := by
  refine ⟨?_, completedOutputs_exec_ok run_id thread_id consumed,
    fun h => Option.noConfusion h⟩
  rw [publishedEvents_exec_ok]
  exact List.getLast?_concat _

theorem cons_append_index (a : OrchAction) (l1 l2 : List OrchAction) (j : Nat) :
    (a :: (l1 ++ l2))[l1.length + 1 + j]? = l2[j]? := by
  have h1 : l1.length + 1 + j = (l1.length + j) + 1 := by omega
  rw [h1, List.getElem?_cons_succ,
    List.getElem?_append_right (Nat.le_add_right _ _)]
  congr 1
  omega

theorem exec_ok_shape (run_id thread_id : String) (consumed : List RawEvent) :
    execute_run_async run_id thread_id consumed StreamResult.ok =
      OrchAction.dbRunStatus run_id "running" none none ::
        (eventActions run_id 0 consumed ++
          [OrchAction.brokerPut run_id (consumed.length + 1)
              (eventId run_id (consumed.length + 1))
              (endEvent (computeFinalOutput consumed)),
           OrchAction.storeEvent run_id (consumed.length + 1)
              (eventId run_id (consumed.length + 1))
              (endEvent (computeFinalOutput consumed)),
           OrchAction.dbRunStatus run_id "completed" (some (JValue.obj [])) none,
           OrchAction.dbThreadStatus thread_id "idle",
           OrchAction.cleanupRun run_id,
           OrchAction.removeActiveRun run_id]) := by
  simp [execute_run_async]

theorem exec_cancelled_shape (run_id thread_id : String)
    (consumed : List RawEvent) :
    execute_run_async run_id thread_id consumed StreamResult.cancelled =
      OrchAction.dbRunStatus run_id "running" none none ::
        (eventActions run_id 0 consumed ++
          [OrchAction.dbRunStatus run_id "cancelled" (some (JValue.obj [])) none,
           OrchAction.dbThreadStatus thread_id "idle",
           OrchAction.signalCancelled run_id,
           OrchAction.cleanupRun run_id,
           OrchAction.removeActiveRun run_id]) := by
  simp [execute_run_async]

theorem exec_errored_shape (run_id thread_id msg : String)
    (consumed : List RawEvent) :
    execute_run_async run_id thread_id consumed (StreamResult.errored msg) =
      OrchAction.dbRunStatus run_id "running" none none ::
        (eventActions run_id 0 consumed ++
          [OrchAction.dbRunStatus run_id "failed" (some (JValue.obj []))
              (some msg),
           OrchAction.dbThreadStatus thread_id "idle",
           OrchAction.signalError run_id msg,
           OrchAction.cleanupRun run_id,
           OrchAction.removeActiveRun run_id]) := by
  simp [execute_run_async]

/-- C5 counterexample: for a run cancelled before any collaborator event,
the executor's trace publishes no event at all before writing the terminal
Run status — the `cancelled` write (position 1) comes strictly before the
broker's terminal cancel signal (position 3), refuting the claim that the
terminal Run status write happens strictly after the terminal event is
published on every terminal path. -/
theorem run_cancel_terminal_write_before_signal :
    publishedEvents (execute_run_async "r" "t" [] StreamResult.cancelled) =
      [] ∧
    execute_run_async "r" "t" [] StreamResult.cancelled =
      [OrchAction.dbRunStatus "r" "running" none none,
       OrchAction.dbRunStatus "r" "cancelled" (some (JValue.obj [])) none,
       OrchAction.dbThreadStatus "t" "idle",
       OrchAction.signalCancelled "r",
       OrchAction.cleanupRun "r",
       OrchAction.removeActiveRun "r"] := ⟨rfl, rfl⟩

/-- C5 as amended: on every terminal path the very first action of
`execute_run_async` is the `running` Run-status write, so it precedes every
published event; on the completed path the terminal `completed` write
(position 2n+3) comes strictly after the terminal `end` event is published
(position 2n+1); but on the cancelled and failed paths the terminal
Run-status write (position 2n+1) comes strictly before the broker's
terminal signal (position 2n+3). -/
theorem run_status_write_ordering (run_id thread_id msg : String)
    (consumed : List RawEvent) :
    ((execute_run_async run_id thread_id consumed StreamResult.ok).head? =
      some (OrchAction.dbRunStatus run_id "running" none none)) ∧
    ((execute_run_async run_id thread_id consumed
        StreamResult.cancelled).head? =
      some (OrchAction.dbRunStatus run_id "running" none none)) ∧
    ((execute_run_async run_id thread_id consumed
        (StreamResult.errored msg)).head? =
      some (OrchAction.dbRunStatus run_id "running" none none)) ∧
    ((execute_run_async run_id thread_id consumed
        StreamResult.ok)[2 * consumed.length + 1]? =
      some (OrchAction.brokerPut run_id (consumed.length + 1)
        (eventId run_id (consumed.length + 1))
        (endEvent (computeFinalOutput consumed)))) ∧
    ((execute_run_async run_id thread_id consumed
        StreamResult.ok)[2 * consumed.length + 3]? =
      some (OrchAction.dbRunStatus run_id "completed"
        (some (JValue.obj [])) none)) ∧
    ((execute_run_async run_id thread_id consumed
        StreamResult.cancelled)[2 * consumed.length + 1]? =
      some (OrchAction.dbRunStatus run_id "cancelled"
        (some (JValue.obj [])) none)) ∧
    ((execute_run_async run_id thread_id consumed
        StreamResult.cancelled)[2 * consumed.length + 3]? =
      some (OrchAction.signalCancelled run_id)) ∧
    ((execute_run_async run_id thread_id consumed
        (StreamResult.errored msg))[2 * consumed.length + 1]? =
      some (OrchAction.dbRunStatus run_id "failed"
        (some (JValue.obj [])) (some msg))) ∧
    ((execute_run_async run_id thread_id consumed
        (StreamResult.errored msg))[2 * consumed.length + 3]? =
      some (OrchAction.signalError run_id msg)) := by
  have hidx0 : 2 * consumed.length + 1 =
      (eventActions run_id 0 consumed).length + 1 + 0 := by
    rw [eventActions_length]
  have hidx2 : 2 * consumed.length + 3 =
      (eventActions run_id 0 consumed).length + 1 + 2 := by
    rw [eventActions_length]
  refine ⟨rfl, rfl, rfl, ?_, ?_, ?_, ?_, ?_, ?_⟩
  · rw [exec_ok_shape, hidx0, cons_append_index]; rfl
  · rw [exec_ok_shape, hidx2, cons_append_index]; rfl
  · rw [exec_cancelled_shape, hidx0, cons_append_index]; rfl
  · rw [exec_cancelled_shape, hidx2, cons_append_index]; rfl
  · rw [exec_errored_shape, hidx0, cons_append_index]; rfl
  · rw [exec_errored_shape, hidx2, cons_append_index]; rfl

/-- Trace of the persistence-relevant steps of `create_run`
(src/src/api/chat_routes.py, POST /chat/.../runs): after validation it marks
the thread `busy`, updates the thread metadata, inserts the Run row with
status `pending`, starts the background executor task and registers it in
`active_runs`, then returns. -/
def create_run_trace (run_id thread_id : String) : List OrchAction :=
  [OrchAction.dbThreadStatus thread_id "busy",
   OrchAction.updThreadMetadata thread_id,
   OrchAction.dbRunInsert run_id thread_id "pending",
   OrchAction.startTask run_id,
   OrchAction.registerActiveRun run_id]

/-- Trace of the persistence-relevant steps of `create_and_stream_run`
(src/src/api/chat_routes.py, POST /threads/.../runs/stream): identical to
`create_run` except that the Run row is inserted with status `streaming`. -/
def create_and_stream_run_trace (run_id thread_id : String) :
    List OrchAction :=
  [OrchAction.dbThreadStatus thread_id "busy",
   OrchAction.updThreadMetadata thread_id,
   OrchAction.dbRunInsert run_id thread_id "streaming",
   OrchAction.startTask run_id,
   OrchAction.registerActiveRun run_id]

/-- Trace of `cancel_run_endpoint` (src/src/api/chat_routes.py, POST
/chat/.../runs/.../cancel) for an existing run: on `action=interrupt` it
asks the streaming service to interrupt the run and persists the Run status
as `interrupted`; otherwise it asks the streaming service to cancel the run
task and persists the Run status as `cancelled`.  Neither branch touches
the Thread status row. -/
def cancel_run_endpoint_trace (run_id : String) (action : String) :
    List OrchAction :=
  if action = "interrupt" then
    [OrchAction.interruptRunTask run_id,
     OrchAction.dbRunStatus run_id "interrupted" none none]
  else
    [OrchAction.cancelRunTask run_id,
     OrchAction.dbRunStatus run_id "cancelled" none none]

/-- The persisted state of the one thread and run a trace concerns:
`Thread.status`, `Run.status`, `Run.output`, `Run.error_message`. -/
structure SysState where
  threadStatus : String
  runStatus : String
  runOutput : Option JValue
  runError : Option String

/-- Replay one action against the persisted state: thread-status writes set
`Thread.status`; a Run insert creates the row with null output and error;
a Run-status update writes `status` and overwrites `output`/`error_message`
only when the corresponding argument is not `None` (exactly the values-dict
built by `update_run_status`).  Broker calls and task bookkeeping do not
touch the persistent store. -/
def applyAction (s : SysState) : OrchAction → SysState
  | OrchAction.dbThreadStatus _ st => { s with threadStatus := st }
  | OrchAction.dbRunInsert _ _ st =>
      { s with runStatus := st, runOutput := none, runError := none }
  | OrchAction.dbRunStatus _ st out err =>
      { s with
        runStatus := st
        runOutput :=
          match out with
          | some o => some o
          | none => s.runOutput
        runError :=
          match err with
          | some e => some e
          | none => s.runError }
  | _ => s

/-- Replay a whole trace in program order. -/
def applyTrace (s : SysState) (trace : List OrchAction) : SysState :=
  trace.foldl applyAction s

theorem applyTrace_append (s : SysState) (t1 t2 : List OrchAction) :
    applyTrace s (t1 ++ t2) = applyTrace (applyTrace s t1) t2 := by
  simp [applyTrace, List.foldl_append]

theorem applyTrace_eventActions (s : SysState) (run_id : String) (c : Nat)
    (es : List RawEvent) :
    applyTrace s (eventActions run_id c es) = s := by
  induction es generalizing c with
  | nil => rfl
  | cons e rest ih =>
      simp only [eventActions, applyTrace, List.foldl_cons] at ih ⊢
      exact ih (c + 1)

/-- C3 counterexample: take a thread that is `busy` with its run `running`
and interrupt the run through the cancel endpoint.  The endpoint persists
the terminal status `interrupted` but performs no thread-status write at
all, so immediately after the run reaches the `interrupted` terminal state
the thread is still `busy`, not `idle` — refuting the claim for the
interrupted terminal path. -/
theorem interrupted_run_leaves_thread_busy :
    applyTrace ⟨"busy", "running", none, none⟩
        (cancel_run_endpoint_trace "r" "interrupt") =
      ⟨"busy", "interrupted", none, none⟩ ∧
    "busy" ≠ "idle" := by
  refine ⟨rfl, ?_⟩
  decide

/-- C3 as amended: the thread is `busy` immediately after `create_run`
returns; it is `idle` immediately after the three executor-driven terminal
paths (completed, failed, and cancellation of the background task), with
the Run in the matching terminal status; but the `interrupted` terminal
path — the cancel endpoint with `action=interrupt` — writes the terminal
Run status without touching the thread status, leaving it as it was. -/
theorem thread_status_around_run_lifecycle (s : SysState)
    (run_id thread_id msg : String) (consumed : List RawEvent) :
    ((applyTrace s (create_run_trace run_id thread_id)).threadStatus =
      "busy") ∧
    ((applyTrace s (execute_run_async run_id thread_id consumed
        StreamResult.ok)).threadStatus = "idle") ∧
    ((applyTrace s (execute_run_async run_id thread_id consumed
        StreamResult.ok)).runStatus = "completed") ∧
    ((applyTrace s (execute_run_async run_id thread_id consumed
        StreamResult.cancelled)).threadStatus = "idle") ∧
    ((applyTrace s (execute_run_async run_id thread_id consumed
        StreamResult.cancelled)).runStatus = "cancelled") ∧
    ((applyTrace s (execute_run_async run_id thread_id consumed
        (StreamResult.errored msg))).threadStatus = "idle") ∧
    ((applyTrace s (execute_run_async run_id thread_id consumed
        (StreamResult.errored msg))).runStatus = "failed") ∧
    ((applyTrace s (cancel_run_endpoint_trace run_id
        "interrupt")).runStatus = "interrupted") ∧
    ((applyTrace s (cancel_run_endpoint_trace run_id
        "interrupt")).threadStatus = s.threadStatus) := by
  have hfold : List.foldl applyAction
      (applyAction s (OrchAction.dbRunStatus run_id "running" none none))
      (eventActions run_id 0 consumed) =
      applyAction s (OrchAction.dbRunStatus run_id "running" none none) :=
    applyTrace_eventActions _ run_id 0 consumed
  refine ⟨rfl, ?_, ?_, ?_, ?_, ?_, ?_, rfl, rfl⟩
  · rw [exec_ok_shape]
    simp only [applyTrace, List.foldl_cons, List.foldl_append, hfold]
    rfl
  · rw [exec_ok_shape]
    simp only [applyTrace, List.foldl_cons, List.foldl_append, hfold]
    rfl
  · rw [exec_cancelled_shape]
    simp only [applyTrace, List.foldl_cons, List.foldl_append, hfold]
    rfl
  · rw [exec_cancelled_shape]
    simp only [applyTrace, List.foldl_cons, List.foldl_append, hfold]
    rfl
  · rw [exec_errored_shape]
    simp only [applyTrace, List.foldl_cons, List.foldl_append, hfold]
    rfl
  · rw [exec_errored_shape]
    simp only [applyTrace, List.foldl_cons, List.foldl_append, hfold]
    rfl

/-- C6 counterexample: the streaming create-and-stream operation persists
its Run row with status `streaming`, not `pending` — refuting the claim
that every run-creation operation creates the Run in `pending`. -/
theorem stream_run_created_streaming :
    (applyTrace ⟨"idle", "", none, none⟩
        (create_and_stream_run_trace "r" "t")).runStatus = "streaming" ∧
    "streaming" ≠ "pending" := by
  refine ⟨rfl, ?_⟩
  decide

/-- C6 as amended: the non-streaming `create_run` persists its Run row with
status `pending` before starting the background executor task (the insert
precedes the task start in its trace), while the streaming
`create_and_stream_run` persists the row with status `streaming` — also
before starting the executor. -/
theorem run_created_pending_only_non_streaming (s : SysState)
    (run_id thread_id : String) :
    ((applyTrace s (create_run_trace run_id thread_id)).runStatus =
      "pending") ∧
    ((create_run_trace run_id thread_id)[2]? =
      some (OrchAction.dbRunInsert run_id thread_id "pending")) ∧
    ((create_run_trace run_id thread_id)[3]? =
      some (OrchAction.startTask run_id)) ∧
    ((applyTrace s (create_and_stream_run_trace run_id thread_id)).runStatus =
      "streaming") ∧
    ((create_and_stream_run_trace run_id thread_id)[2]? =
      some (OrchAction.dbRunInsert run_id thread_id "streaming")) ∧
    ((create_and_stream_run_trace run_id thread_id)[3]? =
      some (OrchAction.startTask run_id)) :=
  ⟨rfl, rfl, rfl, rfl, rfl, rfl⟩

/-- One enabled/disabled cron schedule row from the `cron` table.  The
external croniter library's view of the schedule string is captured by two
fields: `valid` models `croniter.is_valid(cron.schedule)` and `prevFire t`
models `croniter(cron.schedule, base_time).get_prev(datetime)` — the most
recent fire time strictly before the wall-clock instant `t`, in epoch
seconds (cron fire times fall on minute boundaries). -/
structure CronSchedule where
  cron_id : Nat
  enabled : Bool
  valid : Bool
  prevFire : Nat → Nat

/-- One row of the `cron_runs` table, restricted to the fields the loops
write. -/
structure CronRunRow where
  cron_id : Nat
  status : String
deriving DecidableEq

/-- `datetime.now(UTC).replace(second=0, microsecond=0)`: the wall-clock
instant truncated to the start of its minute, in epoch seconds. -/
def truncToMinute (t : Nat) : Nat := t - t % 60

/-- Shallow embedding of `check_and_schedule_cron_jobs` from
src/backend/services/cron_service.py, invoked at wall-clock instant `t`
(epoch seconds): for every enabled cron whose expression is valid and whose
most recent fire time strictly before `t` equals the current minute, append
a new CronRun row in status `scheduled`.  There is no duplicate check
against existing rows. -/
def check_and_schedule_cron_jobs (rows : List CronRunRow)
    (crons : List CronSchedule) (t : Nat) : List CronRunRow :=
  rows ++
    (crons.filter fun c =>
        c.enabled && c.valid && (c.prevFire t == truncToMinute t)).map
      fun c => ⟨c.cron_id, "scheduled"⟩

/-- The schedule `*/5 * * * *` (every five minutes) as croniter sees it at
the instants used below: fire times are the multiples of 300 seconds, and
the most recent fire strictly before `t` is the largest such multiple
below `t`. -/
def every5 : CronSchedule :=
  ⟨1, true, true, fun t => ((t - 1) / 300) * 300⟩

/-- C2 counterexample: the enabled schedule `*/5 * * * *` matches the
minute 12:00 UTC (epoch-second 43200).  Running
`check_and_schedule_cron_jobs` at 12:00:10 (43210) and again at 12:00:30
(43230) — twice within that same matching minute — creates two `scheduled`
CronRun rows, not exactly one: the exact-minute equality test passes on
both invocations and nothing deduplicates. -/
theorem cron_check_twice_creates_two_firings :
    check_and_schedule_cron_jobs
        (check_and_schedule_cron_jobs [] [every5] 43210) [every5] 43230 =
      [⟨1, "scheduled"⟩, ⟨1, "scheduled"⟩] ∧
    (check_and_schedule_cron_jobs
        (check_and_schedule_cron_jobs [] [every5] 43210) [every5] 43230).length ≠
      1 := by
  refine ⟨rfl, ?_⟩
  decide

/-- C2 as amended: every invocation of the check during a minute matched by
an enabled, valid schedule appends exactly one new `scheduled` CronFiring
for that schedule, so two invocations within the same matching minute
create two firings — one per invocation.  At-most-one-firing-per-minute
relies on the scheduler ticking the check once per minute, not on any
dedup in the check itself. -/
theorem cron_check_fires_once_per_invocation (rows : List CronRunRow)
    (c : CronSchedule) (t1 t2 : Nat) (he : c.enabled = true)
    (hv : c.valid = true) (h1 : c.prevFire t1 = truncToMinute t1)
    (h2 : c.prevFire t2 = truncToMinute t2) :
    check_and_schedule_cron_jobs rows [c] t1 =
      rows ++ [⟨c.cron_id, "scheduled"⟩] ∧
    check_and_schedule_cron_jobs
        (check_and_schedule_cron_jobs rows [c] t1) [c] t2 =
      rows ++ [⟨c.cron_id, "scheduled"⟩, ⟨c.cron_id, "scheduled"⟩] := by
  have hone : ∀ t, c.prevFire t = truncToMinute t →
      check_and_schedule_cron_jobs rows [c] t =
        rows ++ [⟨c.cron_id, "scheduled"⟩] := by
    intro t ht
    simp [check_and_schedule_cron_jobs, he, hv, ht]
  refine ⟨hone t1 h1, ?_⟩
  rw [hone t1 h1]
  simp [check_and_schedule_cron_jobs, he, hv, h2]

/-- Witness for C2's amended claim at the concrete schedule `*/5 * * * *`
and the instants 12:00:10 and 12:00:30 UTC. -/
theorem cron_check_fires_once_per_invocation_witness :
    every5.enabled = true ∧ every5.valid = true ∧
    every5.prevFire 43210 = truncToMinute 43210 ∧
    every5.prevFire 43230 = truncToMinute 43230 ∧
    (check_and_schedule_cron_jobs [] [every5] 43210 =
        [] ++ [⟨every5.cron_id, "scheduled"⟩] ∧
      check_and_schedule_cron_jobs
          (check_and_schedule_cron_jobs [] [every5] 43210) [every5] 43230 =
        [] ++ [⟨every5.cron_id, "scheduled"⟩, ⟨every5.cron_id, "scheduled"⟩]) :=
  ⟨rfl, rfl, by decide, by decide,
    cron_check_fires_once_per_invocation [] every5 43210 43230 rfl rfl
      (by decide) (by decide)⟩

/-- The one outcome of the try-block of `run_cron_job`: either
`graph.ainvoke` returned a response whose `messages` list has the given
textual contents, or something in the block raised an exception whose
`str(e)` is `msg` (a missing assistant also lands here: `raise (tuple)`
itself raises a TypeError). -/
inductive InvokeOutcome where
  | success (messages : List String)
  | raised (msg : String)

/-- Shallow embedding of `run_cron_job` from
src/backend/services/cron_service.py, returning the (status, output) pair
of the dict it returns: on success, status `completed` with the content of
the last message; on any exception, status `error` (not `failed`) with the
stringified error.  An empty messages list makes `messages[-1]` raise an
IndexError, which the same except-branch turns into status `error`. -/
def run_cron_job (outcome : InvokeOutcome) : String × String :=
  match outcome with
  | InvokeOutcome.success msgs =>
      match msgs.getLast? with
      | some last => ("completed", last)
      | none => ("error", "list index out of range")
  | InvokeOutcome.raised e => ("error", e)

/-- One row of the claim/run/record loop body of `run_scheduled_jobs`
(src/backend/services/cron_service.py) applied to one `scheduled` CronRun
row: flip it to `running` and commit, invoke `run_cron_job`, then write
the returned status and output back and commit. -/
def run_scheduled_jobs_step (row : CronRunRow) (outcome : InvokeOutcome) :
    CronRunRow × Option String :=
  let running : CronRunRow := ⟨row.cron_id, "running"⟩
  let res := run_cron_job outcome
  (⟨running.cron_id, res.1⟩, some res.2)

/-- C8: on a failing invocation the Cron Dispatch Loop persists the firing
with status `error` — not `failed` — so the CronFiring status does not stay
inside the documented set scheduled/running/completed/failed
(src/backend/misc/models.py documents exactly that set for CronRun.status).
On success it does persist `completed` with the last message as output. -/
theorem cron_dispatch_failure_status_is_error :
    (run_scheduled_jobs_step ⟨7, "scheduled"⟩
        (InvokeOutcome.raised "boom")).1.status = "error" ∧
    (run_scheduled_jobs_step ⟨7, "scheduled"⟩
        (InvokeOutcome.raised "boom")).2 = some "boom" ∧
    "error" ∉ ["scheduled", "running", "completed", "failed"] ∧
    (run_scheduled_jobs_step ⟨7, "scheduled"⟩
        (InvokeOutcome.success ["did it"])).1.status = "completed" ∧
    (run_scheduled_jobs_step ⟨7, "scheduled"⟩
        (InvokeOutcome.success ["did it"])).2 = some "did it" := by
  refine ⟨rfl, rfl, ?_, rfl, rfl⟩
  decide
